import Mathlib

/-!
Verification development for the hive-tx-cli repository: a shallow Lean
embedding of the configuration resolution, operation building and
transaction-confirmation logic, with theorems settling the specified
properties.  String-typed numeric parsing follows the JavaScript helpers in
src/utils.ts; decimal arithmetic is modelled exactly over rationals.
-/

namespace HiveCli

/-! ## JavaScript-style string helpers -/

/-- Whitespace characters recognized when trimming. -/
def isWsChar (c : Char) : Bool :=
  c.toNat = 32 ∨ c.toNat = 9 ∨ c.toNat = 10 ∨ c.toNat = 13 ∨ c.toNat = 11 ∨ c.toNat = 12

/-- Drop leading whitespace characters. -/
def dropWs : List Char → List Char
  | [] => []
  | c :: cs => if isWsChar c then dropWs cs else c :: cs

/-- Trim whitespace from both ends of a character list. -/
def trimChars (cs : List Char) : List Char :=
  ((dropWs ((dropWs cs).reverse)).reverse)

/-- JavaScript `String.prototype.trim`. -/
def jsTrim (s : String) : String :=
  String.mk (trimChars s.data)

/-- Split a character list on a separator character, keeping empty
segments. -/
def splitChars (sep : Char) : List Char → List (List Char)
  | [] => [[]]
  | c :: cs =>
    if c = sep then [] :: splitChars sep cs
    else
      match splitChars sep cs with
      | [] => [[c]]
      | seg :: rest => (c :: seg) :: rest

/-- JavaScript `String.prototype.split` with a one-character separator. -/
def jsSplit (s : String) (sep : Char) : List String :=
  (splitChars sep s.data).map String.mk

/-- JavaScript `String.prototype.toUpperCase` (ASCII). -/
def jsToUpper (s : String) : String :=
  String.mk (s.data.map Char.toUpper)

/-! ## JavaScript-style numeric parsing (src/utils.ts) -/

/-- Leading decimal digits of a character list, together with the rest. -/
def takeDigits : List Char → List Char × List Char
  | [] => ([], [])
  | c :: cs =>
    if c.isDigit then
      let (ds, rest) := takeDigits cs
      (c :: ds, rest)
    else ([], c :: cs)

/-- Numeric value of a list of decimal digit characters. -/
def digitsVal (ds : List Char) : Nat :=
  ds.foldl (fun acc c => acc * 10 + (c.toNat - 48)) 0

/-- Split an optional leading sign from a character list; `true` means
negative. -/
def splitSign : List Char → Bool × List Char
  | [] => (false, [])
  | c :: cs =>
    if c = Char.ofNat 45 then (true, cs)
    else if c = Char.ofNat 43 then (false, cs)
    else (false, c :: cs)

/-- JavaScript `parseInt` on a base-10 string: skips surrounding whitespace,
reads an optional sign and leading digits, ignores trailing characters, and
yields `none` for `NaN` (no digits found). -/
def parseIntJS (s : String) : Option Int :=
  let (neg, cs) := splitSign (trimChars s.data)
  let (ds, _) := takeDigits cs
  if ds.isEmpty then none
  else some (if neg then -(digitsVal ds : Int) else (digitsVal ds : Int))

/-- A JavaScript number arising from parsing a decimal string, kept exactly
as an unreduced fraction `num / den` with positive denominator (a power of
ten).  The inputs handled by this program are exactly representable, so no
binary floating-point rounding is modelled. -/
structure JsNum where
  num : Int
  den : Nat := 1
deriving Repr, DecidableEq

/-- The exact rational value of a parsed number. -/
def JsNum.toRat (d : JsNum) : ℚ :=
  (d.num : ℚ) / (d.den : ℚ)

/-- Value comparison of parsed numbers (denominators are positive). -/
def JsNum.lt (a b : JsNum) : Prop :=
  a.num * (b.den : Int) < b.num * (a.den : Int)

instance : LT JsNum := ⟨JsNum.lt⟩

instance (a b : JsNum) : Decidable (a < b) :=
  inferInstanceAs (Decidable (a.num * (b.den : Int) < b.num * (a.den : Int)))

instance : OfNat JsNum 0 := ⟨{ num := 0 }⟩

/-- A parsed number is positive exactly when its numerator is. -/
theorem JsNum.zero_lt_iff (d : JsNum) : ((0 : JsNum) < d) ↔ 0 < d.num := by
  show (0 : Int) * (d.den : Int) < d.num * ((1 : Nat) : Int) ↔ 0 < d.num
  omega

/-- Exact product of two parsed numbers. -/
def JsNum.mul (a b : JsNum) : JsNum :=
  { num := a.num * b.num, den := a.den * b.den }

/-- Exact quotient of two parsed numbers (callers guard against a zero
divisor, as the source does). -/
def JsNum.div (a b : JsNum) : JsNum :=
  if 0 ≤ b.num then { num := a.num * b.den, den := a.den * b.num.toNat }
  else { num := -(a.num * b.den), den := a.den * (-b.num).toNat }

/-- JavaScript `parseFloat` on a plain decimal string: optional sign, integer
digits, optional fractional digits; trailing characters are ignored and
`none` stands for `NaN`.  The value is kept exactly. -/
def parseFloatJS (s : String) : Option JsNum :=
  let (neg, cs) := splitSign (trimChars s.data)
  let (ints, rest) := takeDigits cs
  let fracs :=
    match rest with
    | c :: r => if c = Char.ofNat 46 then (takeDigits r).1 else []
    | [] => []
  if ints.isEmpty ∧ fracs.isEmpty then none
  else
    let mantissa : Int := (digitsVal ints : Int) * (10 : Int) ^ fracs.length + (digitsVal fracs : Int)
    some { num := if neg then -mantissa else mantissa, den := 10 ^ fracs.length }

/-- The string branch of `parseAssetAmount` in src/utils.ts (all call sites
settled here pass strings): a falsy (empty) input yields `0`, otherwise the
text before the first space is parsed with `parseFloat`, defaulting to `0`
when that is `NaN`. -/
def parseAssetAmount (s : String) : JsNum :=
  if s = "" then { num := 0 }
  else
    match parseFloatJS ((jsSplit s (Char.ofNat 32)).headD "0") with
    | some q => q
    | none => { num := 0 }

/-- The `parseTags` helper of src/utils.ts: split on commas, trim each entry,
drop falsy (empty) entries. -/
def parseTags (tags : String) : List String :=
  if tags = "" then []
  else ((jsSplit tags (Char.ofNat 44)).map jsTrim).filter (fun t => t ≠ "")

/-- JavaScript `x || d` for an optional string `x` (absent or empty counts as
falsy). -/
def jsDefault (o : Option String) (d : String) : String :=
  match o with
  | none => d
  | some s => if s = "" then d else s

/-! ## JSON values and `JSON.stringify` (for `json_metadata` assembly) -/

mutual

/-- JSON values as assembled for a post's metadata object. -/
inductive Json where
  | str (s : String)
  | num (n : Int)
  | bool (b : Bool)
  | arr (elems : JsonList)
  | obj (fields : JsonFields)
deriving Repr

/-- Elements of a JSON array. -/
inductive JsonList where
  | nil
  | cons (hd : Json) (tl : JsonList)
deriving Repr

/-- Ordered key-value fields of a JSON object. -/
inductive JsonFields where
  | nil
  | cons (key : String) (val : Json) (tl : JsonFields)
deriving Repr

end

/-- Escape of a single character inside a JSON string literal (the characters
produced by the commands settled here need no escaping). -/
def escapeJsonChar (c : Char) : String :=
  if c.toNat = 34 then "\\\""
  else if c.toNat = 92 then "\\\\"
  else if c.toNat = 10 then "\\n"
  else if c.toNat = 13 then "\\r"
  else if c.toNat = 9 then "\\t"
  else String.singleton c

/-- Escape of a full JSON string body. -/
def escapeJsonString (s : String) : String :=
  String.join (s.toList.map escapeJsonChar)

mutual

/-- Compact `JSON.stringify` rendering of a JSON value. -/
def Json.render : Json → String
  | .str s => "\"" ++ escapeJsonString s ++ "\""
  | .num n => toString n
  | .bool b => if b then "true" else "false"
  | .arr es => "[" ++ JsonList.render es ++ "]"
  | .obj fs => "\x7b" ++ JsonFields.render fs ++ "\x7d"

/-- Comma-separated rendering of JSON array elements. -/
def JsonList.render : JsonList → String
  | .nil => ""
  | .cons e .nil => Json.render e
  | .cons e tl => Json.render e ++ "," ++ JsonList.render tl

/-- Comma-separated rendering of JSON object fields. -/
def JsonFields.render : JsonFields → String
  | .nil => ""
  | .cons k v .nil => "\"" ++ escapeJsonString k ++ "\":" ++ Json.render v
  | .cons k v tl =>
    "\"" ++ escapeJsonString k ++ "\":" ++ Json.render v ++ "," ++ JsonFields.render tl

end

/-- A JSON array of strings. -/
def JsonList.ofStrings : List String → JsonList
  | [] => .nil
  | s :: rest => .cons (.str s) (JsonList.ofStrings rest)

/-- Whether an object has a field with the given key. -/
def JsonFields.hasKey : JsonFields → String → Bool
  | .nil, _ => false
  | .cons k0 _ tl, k => k0 = k || tl.hasKey k

/-- Overwrite every field with the given key, keeping its position. -/
def JsonFields.setAll : JsonFields → String → Json → JsonFields
  | .nil, _, _ => .nil
  | .cons k0 v0 tl, k, v =>
    if k0 = k then .cons k v (tl.setAll k v) else .cons k0 v0 (tl.setAll k v)

/-- Append a field at the end of an object. -/
def JsonFields.push : JsonFields → String → Json → JsonFields
  | .nil, k, v => .cons k v .nil
  | .cons k0 v0 tl, k, v => .cons k0 v0 (tl.push k v)

/-- Whether an object has no fields (`Object.keys(o).length > 0` is false). -/
def JsonFields.isEmpty : JsonFields → Bool
  | .nil => true
  | .cons _ _ _ => false

/-- JavaScript property assignment `o.k = v` on an object kept as an ordered
field list: an existing key is overwritten in place, a new key is appended. -/
def setKey (fields : JsonFields) (k : String) (v : Json) : JsonFields :=
  if fields.hasKey k then fields.setAll k v else fields.push k v

/-! ## Operation records (src/types.ts `HiveOperation` shapes) -/

/-- Value of a `vote` operation; `weight` is `none` when JavaScript would
carry `NaN` (unparseable weight flag). -/
structure VoteValue where
  voter : String
  author : String
  permlink : String
  weight : Option Int
deriving Repr, DecidableEq

/-- Value of a `comment` operation. -/
structure CommentValue where
  parent_author : String
  parent_permlink : String
  author : String
  permlink : String
  title : String
  body : String
  json_metadata : String
deriving Repr, DecidableEq

/-- One beneficiary entry of a `comment_options` extension. -/
structure Beneficiary where
  account : String
  weight : Int
deriving Repr, DecidableEq

/-- Value of a `comment_options` operation; each extension is a tagged
beneficiary list, mirroring the `[0, beneficiaries]` pairs in the source. -/
structure CommentOptionsValue where
  author : String
  permlink : String
  max_accepted_payout : String
  percent_hbd : Int
  allow_votes : Bool
  allow_curation_rewards : Bool
  extensions : List (Nat × List Beneficiary)
deriving Repr, DecidableEq

/-- Value of a `delegate_vesting_shares` operation. -/
structure DelegateVestingSharesValue where
  delegator : String
  delegatee : String
  vesting_shares : String
deriving Repr, DecidableEq

/-- Value of a `claim_reward_balance` operation. -/
structure ClaimRewardBalanceValue where
  account : String
  reward_hive : String
  reward_hbd : String
  reward_vesting : String
deriving Repr, DecidableEq

/-- The typed operations built by the commands settled here. -/
inductive HiveOperation where
  | vote (v : VoteValue)
  | comment (v : CommentValue)
  | comment_options (v : CommentOptionsValue)
  | delegate_vesting_shares (v : DelegateVestingSharesValue)
  | claim_reward_balance (v : ClaimRewardBalanceValue)
deriving Repr, DecidableEq

deriving instance DecidableEq for Except

/-! ## Configuration resolution (src/config.ts, env-aware revision) -/

/-- The `Config` interface of src/types.ts. -/
structure Config where
  account : String
  postingKey : Option String := none
  activeKey : Option String := none
  node : Option String := none
  chainId : Option String := none
deriving Repr, DecidableEq

/-- Raw process environment as read by `getEnvConfig`: each field is the
value of the corresponding `HIVE_*` variable, `none` when unset. -/
structure Env where
  hiveAccount : Option String := none
  hivePostingKey : Option String := none
  hiveActiveKey : Option String := none
deriving Repr, DecidableEq

/-- The partial configuration assembled by `getEnvConfig`: a key is included
only when the environment variable is truthy (set and non-empty). -/
structure PartialConfig where
  account : Option String
  postingKey : Option String
  activeKey : Option String
deriving Repr, DecidableEq

/-- Keep an environment value only when JavaScript would treat it as truthy. -/
def truthyEnv (o : Option String) : Option String :=
  match o with
  | none => none
  | some s => if s = "" then none else some s

/-- The `getEnvConfig` helper of src/config.ts. -/
def getEnvConfig (e : Env) : PartialConfig where
  account := truthyEnv e.hiveAccount
  postingKey := truthyEnv e.hivePostingKey
  activeKey := truthyEnv e.hiveActiveKey

/-- State of the persisted `~/.hive-cli/config.json` file as `getConfig`
observes it: missing, present but unreadable or malformed (`readJson`
throws), or present with parsed contents. -/
inductive FileState where
  | absent
  | unreadable
  | present (cfg : Config)
deriving Repr, DecidableEq

/-- The configuration synthesized from environment values alone (both the
missing-file and the unreadable-file branches of `getConfig` build it). -/
def envOnlyConfig (env : PartialConfig) : Option Config :=
  match env.account with
  | none => none
  | some a => some { account := a, postingKey := env.postingKey, activeKey := env.activeKey }

/-- The `getConfig` resolver of src/config.ts: environment values override
the persisted file; a missing or unreadable file falls back to an
environment-only configuration or to `none` when no account is available. -/
def getConfig (e : Env) (f : FileState) : Option Config :=
  let env := getEnvConfig e
  match f with
  | .absent => envOnlyConfig env
  | .unreadable => envOnlyConfig env
  | .present fc =>
    let mergedAccount := env.account.getD fc.account
    some
      { account := if mergedAccount = "" then "" else mergedAccount
        postingKey := env.postingKey <|> fc.postingKey
        activeKey := env.activeKey <|> fc.activeKey
        node := fc.node
        chainId := fc.chainId }

/-- The `saveConfig` writer of src/config.ts, seen through the file state it
leaves behind: the configuration is persisted as pretty-printed JSON and read
back structurally intact. -/
def saveConfig (cfg : Config) : FileState :=
  FileState.present cfg

/-- An environment with no `HIVE_*` overrides set. -/
def emptyEnv : Env := {}

/-- Default node endpoint of src/hive-client.ts. -/
def DEFAULT_NODE : String := "https://api.hive.blog"

/-- The node the `HiveClient` constructor configures:
`config.node || DEFAULT_NODE` (empty string is falsy). -/
def effectiveNode (cfg : Config) : String :=
  match cfg.node with
  | none => DEFAULT_NODE
  | some s => if s = "" then DEFAULT_NODE else s

/-- Error message printed by every broadcast command when no account can be
resolved. -/
def accountNotSpecifiedMsg : String :=
  "Account not specified. Use --account, HIVE_ACCOUNT, or configure with \"hive config\""

/-! ## Vote command (src/commands/broadcast.ts `voteCmd`) -/

/-- Parsed flags of the `vote` command.  `voter` is the already-resolved
account name (empty when none could be resolved); `url` is the outcome of
the external `parseHiveUrl` helper when the `--url` flag was given
(`some none` models an unparseable URL). -/
structure VoteInput where
  voter : String
  author : String := ""
  permlink : String := ""
  url : Option (Option (String × String)) := none
  weight : String := "100"
deriving Repr

/-- Operation building of the `vote` command: resolve author and permlink,
then build one `vote` operation whose weight is `parseInt(weight) * 100`
with no range validation.  Errors model the paths that print and exit
before any broadcast. -/
def voteCmd (inp : VoteInput) : Except String (List HiveOperation) :=
  if inp.voter = "" then .error accountNotSpecifiedMsg
  else
    match inp.url with
    | some none => .error "Could not parse --url"
    | some (some (a, p)) =>
      if a = "" ∨ p = "" then .error "Provide either --url or both --author and --permlink"
      else .ok [.vote { voter := inp.voter, author := a, permlink := p,
                        weight := (parseIntJS inp.weight).map (fun n => n * 100) }]
    | none =>
      if inp.author = "" ∨ inp.permlink = "" then
        .error "Provide either --url or both --author and --permlink"
      else .ok [.vote { voter := inp.voter, author := inp.author, permlink := inp.permlink,
                        weight := (parseIntJS inp.weight).map (fun n => n * 100) }]

/-! ## Publish command (current revision, src/commands/broadcast.ts and
src/commands/publish.ts `publishCommand`) -/

/-- Outcome of `JSON.parse` on the `--beneficiaries` flag: a parse failure,
a JSON value that is not an array, or a parsed beneficiary array. -/
inductive BenParse where
  | failed
  | notArray
  | arr (bens : List Beneficiary)
deriving Repr

/-- Resolution of the parent pair from `--parent-url` or the explicit
flags (the `parseHiveUrl` branch of both publish revisions). -/
def resolveParent (parentAuthor parentPermlink : String)
    (parentUrl : Option (Option (String × String))) :
    Except String (String × String) :=
  match parentUrl with
  | none => .ok (parentAuthor, parentPermlink)
  | some none => .error "Could not parse --parent-url"
  | some (some ap) => .ok ap

/-- Body resolution of the current publish command: the `--body-file`
content replaces `--body` when the flag is given; an empty result is
rejected afterwards by the caller. -/
def resolveBodyPublish (body : String) (bodyFile : Option (Option String)) :
    Except String String :=
  match bodyFile with
  | none => .ok body
  | some none => .error "Failed to read body file"
  | some (some content) => .ok content

/-- Body resolution of the earlier `commentCmd` revision: `--body-file`
first, then `--body`, else an error. -/
def resolveBodyComment (body : String) (bodyFile : Option (Option String)) :
    Except String String :=
  match bodyFile with
  | some none => .error "Could not read body file"
  | some (some content) => .ok content
  | none =>
    if body ≠ "" then .ok body
    else .error "Either --body or --body-file is required"

/-- Metadata resolution shared by both publish revisions: a non-default
`--metadata` flag must parse as JSON. -/
def resolveMetadata (metadataRaw : String) (metadataParsed : Option JsonFields) :
    Except String JsonFields :=
  if metadataRaw ≠ "" ∧ metadataRaw ≠ "\x7b\x7d" then
    match metadataParsed with
    | none => .error "Invalid JSON in metadata option"
    | some m => .ok m
  else .ok .nil

/-- The `comment_options` extensions of the current publish command:
burn-rewards forces a single 100% beneficiary routed to the null account;
otherwise an explicit beneficiary flag must parse as a JSON array, which is
taken as-is with no weight-sum check. -/
def publishExtensions (burnRewards : Bool) (beneficiaries : Option BenParse) :
    Except String (List (Nat × List Beneficiary)) :=
  if burnRewards then .ok [(0, [⟨"null", 10000⟩])]
  else
    match beneficiaries with
    | some .failed => .error "Invalid JSON in beneficiaries option"
    | some .notArray =>
      .error "Invalid JSON in beneficiaries option: Beneficiaries must be an array"
    | some (.arr bens) => .ok [(0, bens)]
    | none => .ok []

/-- The beneficiary list of the earlier `commentCmd` revision: burn-rewards
forces the null-account entry; an explicit list has its weights summed and
a total above 10000 aborts the command; a non-array parse crashes on
`beneficiaries.reduce` (modelled as an error). -/
def commentBeneficiaries (burnRewards : Bool) (beneficiaries : Option BenParse) :
    Except String (List Beneficiary) :=
  if burnRewards then .ok [⟨"null", 10000⟩]
  else
    match beneficiaries with
    | some .failed => .error "Invalid JSON in --beneficiaries option"
    | some .notArray => .error "TypeError: beneficiaries.reduce is not a function"
    | some (.arr bens) =>
      let totalWeight := (bens.map Beneficiary.weight).sum
      if totalWeight > 10000 then
        .error (s!"Total beneficiary weight {totalWeight} exceeds 10000 (100%)")
      else .ok bens
    | none => .ok []

/-- Parsed flags of the current `publish` command.  `author` is the resolved
account; `bodyFile` is the outcome of reading `--body-file` when given
(`some none` models a read failure); `metadataParsed` is the outcome of
`JSON.parse` on the `--metadata` flag when it differs from the default;
`beneficiaries` is `none` when the flag is absent or empty. -/
structure PublishInput where
  author : String
  permlink : String
  title : String := ""
  body : String := ""
  bodyFile : Option (Option String) := none
  parentAuthor : String := ""
  parentPermlink : String := ""
  parentUrl : Option (Option (String × String)) := none
  community : String := ""
  tags : String := ""
  metadataRaw : String := "\x7b\x7d"
  metadataParsed : Option JsonFields := none
  declineRewards : Bool := false
  maxPayout : String := ""
  beneficiaries : Option BenParse := none
  burnRewards : Bool := false

/-- Operation building of the current `publish` command: assemble the
`comment` operation (parent permlink falling back to
`community || parentPermlink || permlink`), merge tags into the metadata
object, and append a `comment_options` operation when any payout flag is
given.  No beneficiary weight-sum check is performed in this revision. -/
def publishCmd (inp : PublishInput) : Except String (List HiveOperation) :=
  if inp.author = "" then .error accountNotSpecifiedMsg
  else
    match resolveParent inp.parentAuthor inp.parentPermlink inp.parentUrl with
    | .error e => .error e
    | .ok (pa, pp) =>
      match resolveBodyPublish inp.body inp.bodyFile with
      | .error e => .error e
      | .ok body =>
        if body = "" then .error "Body is required. Use --body or --body-file."
        else
          match resolveMetadata inp.metadataRaw inp.metadataParsed with
          | .error e => .error e
          | .ok userMetadata =>
            let metadata :=
              if inp.tags ≠ "" then
                setKey userMetadata "tags" (Json.arr (JsonList.ofStrings (parseTags inp.tags)))
              else userMetadata
            let jsonMetadata :=
              if metadata.isEmpty then "" else Json.render (Json.obj metadata)
            let parentPermlink :=
              if inp.community ≠ "" then inp.community
              else if pp ≠ "" then pp
              else inp.permlink
            let commentOp : HiveOperation := .comment
              { parent_author := pa
                parent_permlink := parentPermlink
                author := inp.author
                permlink := inp.permlink
                title := inp.title
                body := body
                json_metadata := jsonMetadata }
            let wantsCommentOptions :=
              inp.declineRewards ∨ inp.maxPayout ≠ "" ∨ inp.beneficiaries.isSome ∨ inp.burnRewards
            if wantsCommentOptions then
              match publishExtensions inp.burnRewards inp.beneficiaries with
              | .error e => .error e
              | .ok extensions =>
                let maxAcceptedPayout :=
                  if inp.maxPayout ≠ "" then inp.maxPayout
                  else if inp.declineRewards then "0.000 HBD"
                  else "1000000.000 HBD"
                .ok [commentOp,
                     .comment_options
                       { author := inp.author
                         permlink := inp.permlink
                         max_accepted_payout := maxAcceptedPayout
                         percent_hbd := 10000
                         allow_votes := true
                         allow_curation_rewards := true
                         extensions := extensions }]
            else .ok [commentOp]

/-! ## Publish command (earlier revision, `commentCmd` in the unnamed
broadcast file): same assembly, but with a beneficiary weight-sum guard -/

/-- Parsed flags of the earlier `publish` (`commentCmd`) revision; it has no
`--community`, `--decline-rewards` or `--max-payout` flags. -/
structure CommentCmdInput where
  author : String
  permlink : String
  title : String := ""
  body : String := ""
  bodyFile : Option (Option String) := none
  parentAuthor : String := ""
  parentPermlink : String := ""
  parentUrl : Option (Option (String × String)) := none
  tags : String := ""
  metadataRaw : String := "\x7b\x7d"
  metadataParsed : Option JsonFields := none
  burnRewards : Bool := false
  beneficiaries : Option BenParse := none

/-- Operation building of the earlier `commentCmd` revision: when explicit
beneficiaries are given their weights are summed and a total above 10000
basis points aborts the command before any network call; a non-array parse
result crashes on `beneficiaries.reduce` (modelled as an error). -/
def commentCmd (inp : CommentCmdInput) : Except String (List HiveOperation) :=
  if inp.author = "" then .error accountNotSpecifiedMsg
  else
    match resolveParent inp.parentAuthor inp.parentPermlink inp.parentUrl with
    | .error e => .error e
    | .ok (pa, pp) =>
      match resolveBodyComment inp.body inp.bodyFile with
      | .error e => .error e
      | .ok body =>
        match resolveMetadata inp.metadataRaw inp.metadataParsed with
        | .error e => .error e
        | .ok userMetadata =>
          let metadata :=
            if inp.tags ≠ "" then
              setKey userMetadata "tags"
                (Json.arr (JsonList.ofStrings ((jsSplit inp.tags (Char.ofNat 44)).map jsTrim)))
            else userMetadata
          let jsonMetadata :=
            if metadata.isEmpty then "" else Json.render (Json.obj metadata)
          let commentOp : HiveOperation := .comment
            { parent_author := pa
              parent_permlink := if pp ≠ "" then pp else inp.permlink
              author := inp.author
              permlink := inp.permlink
              title := inp.title
              body := body
              json_metadata := jsonMetadata }
          if inp.burnRewards ∨ inp.beneficiaries.isSome then
            match commentBeneficiaries inp.burnRewards inp.beneficiaries with
            | .error e => .error e
            | .ok bens =>
              .ok [commentOp,
                   .comment_options
                     { author := inp.author
                       permlink := inp.permlink
                       max_accepted_payout := "1000000.000 HBD"
                       percent_hbd := 10000
                       allow_votes := true
                       allow_curation_rewards := true
                       extensions := [(0, bens)] }]
          else .ok [commentOp]

/-! ## Claim command (src/commands/account.ts `claimCommand`) -/

/-- Result of the claim command after the reward balances have been
fetched: either the "nothing to claim" short-circuit with no broadcast, or
a broadcast of the given operation list. -/
inductive ClaimOutcome where
  | nothingToClaim
  | broadcast (ops : List HiveOperation)
deriving Repr, DecidableEq

/-- The `claim` command after fetching the account: each balance field
defaults when absent or empty, all three are parsed, and only a strictly
positive parsed amount triggers a `claim_reward_balance` broadcast. -/
def claimCmd (account : String)
    (rewardHiveBalance rewardHbdBalance rewardVestingBalance : Option String) :
    Except String ClaimOutcome :=
  if account = "" then .error accountNotSpecifiedMsg
  else
    let rewardHive := jsDefault rewardHiveBalance "0.000 HIVE"
    let rewardHbd := jsDefault rewardHbdBalance "0.000 HBD"
    let rewardVests := jsDefault rewardVestingBalance "0.000000 VESTS"
    if 0 < parseAssetAmount rewardHive ∨ 0 < parseAssetAmount rewardHbd ∨
        0 < parseAssetAmount rewardVests then
      .ok (.broadcast [.claim_reward_balance
        { account := account
          reward_hive := rewardHive
          reward_hbd := rewardHbd
          reward_vesting := rewardVests }])
    else .ok .nothingToClaim

/-! ## Delegate command (src/commands/account.ts `delegateCommand` and
`hpToVests` in src/utils.ts) -/

/-- The two dynamic global property fields `hpToVests` reads. -/
structure GlobalProps where
  total_vesting_fund_hive : String
  total_vesting_shares : String
deriving Repr, DecidableEq

/-- Zero-padding of a numeral string to a fixed width. -/
def padZeros (s : String) (len : Nat) : String :=
  String.mk (List.replicate (len - s.length) (Char.ofNat 48)) ++ s

/-- JavaScript `Number.prototype.toFixed(6)` on a non-negative decimal value
(rounding half up): the floor of `q * 10^6 + 1/2` rendered with six decimal
digits. -/
def toFixed6 (q : JsNum) : String :=
  let n := (Int.fdiv (q.num * 1000000 * 2 + (q.den : Int)) (2 * (q.den : Int))).toNat
  toString (n / 1000000) ++ "." ++ padZeros (toString (n % 1000000)) 6

/-- The `hpToVests` helper of src/utils.ts:
`vests = hp * total_vesting_shares / total_vesting_fund_hive`, formatted to
six decimals; a falsy (zero) parsed property short-circuits to zero vests. -/
def hpToVests (hp : JsNum) (props : GlobalProps) : String :=
  let totalVestingFundHive := parseAssetAmount props.total_vesting_fund_hive
  let totalVestingShares := parseAssetAmount props.total_vesting_shares
  if totalVestingFundHive.num = 0 ∨ totalVestingShares.num = 0 then "0.000000 VESTS"
  else toFixed6 ((hp.mul totalVestingShares).div totalVestingFundHive) ++ " VESTS"

/-- The `delegate` command after the interactive active-key gate, with the
fetched global properties passed in: the amount must be a finite number
with unit `HP` (case-insensitive), and the operation carries the converted
vesting shares. -/
def delegateCmd (delegator delegatee amount : String) (props : GlobalProps) :
    Except String (List HiveOperation) :=
  if delegator = "" then .error accountNotSpecifiedMsg
  else
    let amountParts := jsSplit amount (Char.ofNat 32)
    let hpAmount := parseFloatJS (amountParts.headD "")
    let unit := (amountParts.get? 1).map jsToUpper
    match hpAmount with
    | none => .error "Amount must be in HP, e.g., \"100 HP\"."
    | some hp =>
      if unit ≠ some "HP" then .error "Amount must be in HP, e.g., \"100 HP\"."
      else .ok [.delegate_vesting_shares
        { delegator := delegator
          delegatee := delegatee
          vesting_shares := hpToVests hp props }]

/-! ## Transaction confirmation polling (Chain Client) -/

/-- Outcome of one confirmation poll for a transaction: the lookup threw, the
response carries no block number yet, or the transaction is in a block. -/
inductive PollResult where
  | lookupError
  | noBlock
  | inBlock (blockNum : Nat)
deriving Repr, DecidableEq

/-- Timeout failure text, naming the transaction id and the elapsed seconds. -/
def timeoutMessage (txId : String) (elapsedMs : Nat) : String :=
  "Transaction " ++ txId ++ " not confirmed after " ++ toString (elapsedMs / 1000) ++ " seconds"

/-- Modelled from the spec: the body of `HiveClient.waitForTransaction`,
whose implementation is not among the provided sources (only its call
sites are).  While the elapsed time is below the timeout it polls the node,
returns on the first response carrying a block number, treats a lookup
error like an unconfirmed response, and otherwise sleeps 3 seconds and
retries; once the timeout elapses it fails with a timeout error naming the
transaction id and the elapsed seconds.  `responses k` is the node's answer
to the poll issued at `3000 * k` milliseconds. -/
def waitForTransactionAux (txId : String) (timeoutMs : Nat)
    (responses : Nat → PollResult) (i elapsed : Nat) : Except String Nat :=
  if elapsed < timeoutMs then
    match responses i with
    | .inBlock b => .ok b
    | _ => waitForTransactionAux txId timeoutMs responses (i + 1) (elapsed + 3000)
  else .error (timeoutMessage txId elapsed)
termination_by timeoutMs - elapsed
decreasing_by omega

/-- Modelled from the spec: `HiveClient.waitForTransaction(txId, timeoutMs)`
with its default timeout of 30000 ms, starting from the first poll at
elapsed time zero. -/
def waitForTransaction (txId : String) (responses : Nat → PollResult)
    (timeoutMs : Nat := 30000) : Except String Nat :=
  waitForTransactionAux txId timeoutMs responses 0 0

/-! ## Helper lemmas -/

/-- Parsing the decimal rendering of a small natural number recovers it. -/
theorem parseIntJS_repr (n : Nat) (h : n < 101) : parseIntJS (toString n) = some (n : Int) := by
  revert h
  revert n
  decide

end HiveCli

namespace HiveCli

/-! ## Polling loop lemmas -/

/-- One unconfirmed poll below the timeout advances the loop by one poll
and 3000 ms. -/
theorem waitAux_step (txId : String) (timeoutMs : Nat) (responses : Nat → PollResult)
    (i elapsed : Nat) (hlt : elapsed < timeoutMs)
    (hnc : ∀ b, responses i ≠ .inBlock b) :
    waitForTransactionAux txId timeoutMs responses i elapsed =
      waitForTransactionAux txId timeoutMs responses (i + 1) (elapsed + 3000) := by
  conv_lhs => rw [waitForTransactionAux]
  rw [if_pos hlt]
  cases hr : responses i with
  | lookupError => rfl
  | noBlock => rfl
  | inBlock b => exact absurd hr (hnc b)

/-- A confirmed poll below the timeout returns its block number. -/
theorem waitAux_found (txId : String) (timeoutMs : Nat) (responses : Nat → PollResult)
    (i elapsed b : Nat) (hlt : elapsed < timeoutMs)
    (hb : responses i = .inBlock b) :
    waitForTransactionAux txId timeoutMs responses i elapsed = .ok b := by
  unfold waitForTransactionAux
  rw [if_pos hlt, hb]

/-- Once the elapsed time reaches the timeout, the loop fails with the
timeout message. -/
theorem waitAux_timeout (txId : String) (timeoutMs : Nat) (responses : Nat → PollResult)
    (i elapsed : Nat) (hge : ¬ elapsed < timeoutMs) :
    waitForTransactionAux txId timeoutMs responses i elapsed =
      .error (timeoutMessage txId elapsed) := by
  unfold waitForTransactionAux
  rw [if_neg hge]

/-- Skipping `k` unconfirmed polls (lookup errors included) advances the
loop by `k` polls and `3000 * k` milliseconds. -/
theorem waitAux_skip (txId : String) (timeoutMs : Nat) (responses : Nat → PollResult)
    (k : Nat) : ∀ (i elapsed : Nat),
    (∀ j, j < k → elapsed + 3000 * j < timeoutMs) →
    (∀ j, j < k → ∀ b, responses (i + j) ≠ .inBlock b) →
    waitForTransactionAux txId timeoutMs responses i elapsed =
      waitForTransactionAux txId timeoutMs responses (i + k) (elapsed + 3000 * k) := by
  induction k with
  | zero => intro i elapsed _ _; simp
  | succ k ih =>
    intro i elapsed htime hnc
    have h1 : elapsed < timeoutMs := by
      have := htime 0 (Nat.succ_pos k)
      simpa using this
    have h2 : ∀ b, responses i ≠ .inBlock b := by
      have h := hnc 0 (Nat.succ_pos k)
      simpa using h
    rw [waitAux_step txId timeoutMs responses i elapsed h1 h2]
    have h3 := ih (i + 1) (elapsed + 3000)
      (fun j hj => by have := htime (j + 1) (by omega); omega)
      (fun j hj b => by
        have harith : i + 1 + j = i + (j + 1) := by omega
        rw [harith]
        exact hnc (j + 1) (by omega) b)
    rw [h3]
    have hi : i + 1 + k = i + (k + 1) := by omega
    have he : elapsed + 3000 + 3000 * k = elapsed + 3000 * (k + 1) := by ring
    rw [hi, he]

/-! ## Claim theorems -/

/-- C1: for every transaction id, `waitForTransaction` with its default
30000 ms timeout polls every 3 seconds, treats each per-poll lookup error
as not yet confirmed, returns the first block number a poll reports, and,
when no poll within the timeout confirms, fails with a timeout error
naming the transaction id and the elapsed 30 seconds. -/
theorem waitForTransaction_spec (txId : String) (responses : Nat → PollResult) :
    (∀ k b, 3000 * k < 30000 →
       (∀ j, j < k → ∀ c, responses j ≠ .inBlock c) →
       responses k = .inBlock b →
       waitForTransaction txId responses = .ok b) ∧
    ((∀ j c, responses j ≠ .inBlock c) →
       waitForTransaction txId responses =
         .error ("Transaction " ++ txId ++ " not confirmed after " ++ "30" ++ " seconds")) := by
  constructor
  · intro k b hk hprev hb
    unfold waitForTransaction
    rw [waitAux_skip txId 30000 responses k 0 0
      (fun j hj => by omega)
      (fun j hj c => by simpa using hprev j hj c)]
    exact waitAux_found txId 30000 responses (0 + k) (0 + 3000 * k) b
      (by omega) (by simpa using hb)
  · intro hnever
    unfold waitForTransaction
    rw [waitAux_skip txId 30000 responses 10 0 0
      (fun j hj => by omega)
      (fun j hj c => by simpa using hnever (0 + j) c)]
    rw [waitAux_timeout txId 30000 responses (0 + 10) (0 + 3000 * 10) (by omega)]
    rfl

/-- Witness for C1: a node that confirms on the third poll yields that
block; a node that always errors yields the 30-second timeout message
naming the transaction id. -/
theorem waitForTransaction_spec_witness :
    (waitForTransaction "abc123"
        (fun k => if k = 2 then .inBlock 777 else .lookupError) = .ok 777) ∧
    (waitForTransaction "abc123" (fun _ => .lookupError) =
      .error ("Transaction " ++ "abc123" ++ " not confirmed after " ++ "30" ++ " seconds")) := by
  constructor
  · exact (waitForTransaction_spec "abc123"
      (fun k => if k = 2 then .inBlock 777 else .lookupError)).1 2 777 (by omega)
      (fun j hj c => by interval_cases j <;> simp)
      (by simp)
  · exact (waitForTransaction_spec "abc123" (fun _ => .lookupError)).2
      (fun j c => by simp)

/-- C4: the command `publish --permlink "p1" --title "T" --body "hello"
--tags "a,b"` with configured account "alice" builds exactly one comment
operation, with author "alice", empty parent author, parent permlink "p1",
metadata containing the two tags, and no comment_options operation. -/
theorem publish_example_builds_single_comment :
    publishCmd { author := "alice", permlink := "p1", title := "T", body := "hello",
                 tags := "a,b" } =
      .ok [.comment
        { parent_author := ""
          parent_permlink := "p1"
          author := "alice"
          permlink := "p1"
          title := "T"
          body := "hello"
          json_metadata := "\x7b\"tags\":[\"a\",\"b\"]\x7d" }] := by
  rfl

/-- C5: for every vote weight input in the inclusive range [1,100], the
built vote operation's weight field is the input scaled by 100 into basis
points. -/
theorem vote_weight_scaling (voter author permlink : String) (n : Nat)
    (hv : voter ≠ "") (ha : author ≠ "") (hp : permlink ≠ "")
    (h1 : 1 ≤ n) (h100 : n ≤ 100) :
    voteCmd { voter := voter, author := author, permlink := permlink,
              weight := toString n } =
      .ok [.vote { voter := voter, author := author, permlink := permlink,
                   weight := some ((n : Int) * 100) }] := by
  unfold voteCmd
  rw [if_neg hv, if_neg (by simp [ha, hp]), parseIntJS_repr n (by omega)]
  rfl

/-- Witness for C5: the weight input 37 is in range and scales to 3700. -/
theorem vote_weight_scaling_witness :
    voteCmd { voter := "carol", author := "alice", permlink := "p1", weight := "37" } =
      .ok [.vote { voter := "carol", author := "alice", permlink := "p1",
                   weight := some 3700 }] := by
  have h := vote_weight_scaling "carol" "alice" "p1" 37
    (by decide) (by decide) (by decide) (by decide) (by decide)
  simpa using h

/-- C10: the vote command applies no client-side range validation: any
weight string that parses to an integer, inside or outside [1,100], yields
a vote operation with weight `parseInt(input) * 100` and no error. -/
theorem vote_weight_unvalidated (voter author permlink s : String) (n : Int)
    (hv : voter ≠ "") (ha : author ≠ "") (hp : permlink ≠ "")
    (hs : parseIntJS s = some n) :
    voteCmd { voter := voter, author := author, permlink := permlink, weight := s } =
      .ok [.vote { voter := voter, author := author, permlink := permlink,
                   weight := some (n * 100) }] := by
  unfold voteCmd
  rw [if_neg hv, if_neg (by simp [ha, hp]), hs]
  rfl

/-- Witness for C10: the out-of-range weights "200", "0" and "-50" all
build operations with weights 20000, 0 and -5000 respectively. -/
theorem vote_weight_unvalidated_witness :
    (voteCmd { voter := "v", author := "a", permlink := "p", weight := "200" } =
      .ok [.vote { voter := "v", author := "a", permlink := "p", weight := some 20000 }]) ∧
    (voteCmd { voter := "v", author := "a", permlink := "p", weight := "0" } =
      .ok [.vote { voter := "v", author := "a", permlink := "p", weight := some 0 }]) ∧
    (voteCmd { voter := "v", author := "a", permlink := "p", weight := "-50" } =
      .ok [.vote { voter := "v", author := "a", permlink := "p", weight := some (-5000) }]) := by
  refine ⟨?_, ?_, ?_⟩
  · simpa using vote_weight_unvalidated "v" "a" "p" "200" 200
      (by decide) (by decide) (by decide) (by decide)
  · simpa using vote_weight_unvalidated "v" "a" "p" "0" 0
      (by decide) (by decide) (by decide) (by decide)
  · simpa using vote_weight_unvalidated "v" "a" "p" "-50" (-50)
      (by decide) (by decide) (by decide) (by decide)

/-- The product of parsed numbers has the product of their values. -/
theorem JsNum.toRat_mul (a b : JsNum) : (a.mul b).toRat = a.toRat * b.toRat := by
  unfold JsNum.mul JsNum.toRat
  push_cast
  rw [div_mul_div_comm]

/-- The quotient of parsed numbers has the quotient of their values. -/
theorem JsNum.toRat_div (a b : JsNum) : (a.div b).toRat = a.toRat / b.toRat := by
  unfold JsNum.div JsNum.toRat
  by_cases hb : (0 : Int) ≤ b.num
  · rw [if_pos hb]
    have hcast : ((b.num.toNat : Nat) : ℚ) = ((b.num : Int) : ℚ) := by
      exact_mod_cast congrArg (fun z : Int => (z : ℚ)) (Int.toNat_of_nonneg hb)
    push_cast
    rw [hcast, div_div_eq_mul_div, div_mul_eq_mul_div, div_div]
  · rw [if_neg hb]
    have hcast : (((-b.num).toNat : Nat) : ℚ) = -((b.num : Int) : ℚ) := by
      have h0 : (((-b.num).toNat : Nat) : Int) = -b.num := Int.toNat_of_nonneg (by omega)
      exact_mod_cast congrArg (fun z : Int => (z : ℚ)) h0
    push_cast
    rw [hcast, mul_neg, neg_div_neg_eq, div_div_eq_mul_div, div_mul_eq_mul_div, div_div]

/-- C8: with nonzero fetched vesting properties, the delegate conversion is
`vests = hp * total_vesting_shares / total_vesting_fund_hive` formatted to
six decimals, and in particular `delegate bob "100 HP"` against fund
"200.000 HIVE" and shares "400.000000 VESTS" builds a
`delegate_vesting_shares` operation with "200.000000 VESTS". -/
theorem delegate_hp_to_vests (hp : JsNum) (props : GlobalProps)
    (hf : (parseAssetAmount props.total_vesting_fund_hive).num ≠ 0)
    (hs : (parseAssetAmount props.total_vesting_shares).num ≠ 0) :
    (hpToVests hp props =
      toFixed6 ((hp.mul (parseAssetAmount props.total_vesting_shares)).div
        (parseAssetAmount props.total_vesting_fund_hive)) ++ " VESTS" ∧
     ((hp.mul (parseAssetAmount props.total_vesting_shares)).div
        (parseAssetAmount props.total_vesting_fund_hive)).toRat =
       hp.toRat * (parseAssetAmount props.total_vesting_shares).toRat /
         (parseAssetAmount props.total_vesting_fund_hive).toRat) ∧
    delegateCmd "alice" "bob" "100 HP"
        { total_vesting_fund_hive := "200.000 HIVE",
          total_vesting_shares := "400.000000 VESTS" } =
      .ok [.delegate_vesting_shares
        { delegator := "alice", delegatee := "bob",
          vesting_shares := "200.000000 VESTS" }] := by
  refine ⟨⟨?_, ?_⟩, by decide⟩
  · unfold hpToVests
    rw [if_neg (by tauto)]
  · rw [JsNum.toRat_div, JsNum.toRat_mul]

/-- Witness for C8: the theorem applied to the mocked global properties of
the example scenario. -/
theorem delegate_hp_to_vests_witness :
    (hpToVests { num := 100 }
        { total_vesting_fund_hive := "200.000 HIVE",
          total_vesting_shares := "400.000000 VESTS" } =
      toFixed6 (((JsNum.mk 100 1).mul
          (parseAssetAmount "400.000000 VESTS")).div
        (parseAssetAmount "200.000 HIVE")) ++ " VESTS" ∧
     (((JsNum.mk 100 1).mul (parseAssetAmount "400.000000 VESTS")).div
        (parseAssetAmount "200.000 HIVE")).toRat =
       (JsNum.mk 100 1).toRat * (parseAssetAmount "400.000000 VESTS").toRat /
         (parseAssetAmount "200.000 HIVE").toRat) ∧
    delegateCmd "alice" "bob" "100 HP"
        { total_vesting_fund_hive := "200.000 HIVE",
          total_vesting_shares := "400.000000 VESTS" } =
      .ok [.delegate_vesting_shares
        { delegator := "alice", delegatee := "bob",
          vesting_shares := "200.000000 VESTS" }] :=
  delegate_hp_to_vests { num := 100 }
    { total_vesting_fund_hive := "200.000 HIVE",
      total_vesting_shares := "400.000000 VESTS" }
    (by decide) (by decide)

/-- Counterexample for C2: the current publish command builds the operation
list successfully for an explicit beneficiary list whose weights sum to
12000 (> 10000), so the command does not fail before the network call. -/
theorem publish_benef_overflow_not_rejected :
    ((6000 : Int) + 6000 > 10000) ∧
    publishCmd { author := "alice", permlink := "p1", body := "hello",
                 beneficiaries := some (.arr [⟨"a", 6000⟩, ⟨"b", 6000⟩]) } =
      .ok [.comment
             { parent_author := "", parent_permlink := "p1", author := "alice",
               permlink := "p1", title := "", body := "hello", json_metadata := "" },
           .comment_options
             { author := "alice", permlink := "p1",
               max_accepted_payout := "1000000.000 HBD", percent_hbd := 10000,
               allow_votes := true, allow_curation_rewards := true,
               extensions := [(0, [⟨"a", 6000⟩, ⟨"b", 6000⟩])] }] :=
  ⟨by decide, by rfl⟩

/-- C2 (amended): the beneficiary weight-sum guard lives in the earlier
`commentCmd` revision of publish: there, an explicit list summing to at
most 10000 basis points builds the comment plus comment_options pair, and
a list summing to more than 10000 fails before any network call.  The
current publish revision appends any parsed beneficiary array unchecked. -/
theorem commentCmd_beneficiary_sum_guard (inp : CommentCmdInput) (bens : List Beneficiary)
    (hauthor : inp.author ≠ "") (hurl : inp.parentUrl = none)
    (hbf : inp.bodyFile = none) (hbody : inp.body ≠ "")
    (hmeta : inp.metadataRaw = "\x7b\x7d") (hburn : inp.burnRewards = false)
    (hben : inp.beneficiaries = some (.arr bens)) :
    ((bens.map Beneficiary.weight).sum ≤ 10000 →
       ∃ cv, commentCmd inp = .ok [.comment cv,
         .comment_options
           { author := inp.author, permlink := inp.permlink,
             max_accepted_payout := "1000000.000 HBD", percent_hbd := 10000,
             allow_votes := true, allow_curation_rewards := true,
             extensions := [(0, bens)] }]) ∧
    (10000 < (bens.map Beneficiary.weight).sum →
       commentCmd inp =
         .error (s!"Total beneficiary weight {(bens.map Beneficiary.weight).sum} exceeds 10000 (100%)")) := by
  have hcb : commentBeneficiaries false (some (BenParse.arr bens)) =
      if (bens.map Beneficiary.weight).sum > 10000 then
        Except.error
          (s!"Total beneficiary weight {(bens.map Beneficiary.weight).sum} exceeds 10000 (100%)")
      else Except.ok bens := rfl
  have hrb : resolveBodyComment inp.body none = Except.ok inp.body := by
    simp [resolveBodyComment, hbody]
  unfold commentCmd
  rw [hurl, hbf, hmeta, hben, hburn, if_neg hauthor, hrb, hcb]
  constructor
  · intro hle
    rw [if_neg (show ¬((bens.map Beneficiary.weight).sum > 10000) from by omega)]
    exact ⟨_, rfl⟩
  · intro hgt
    rw [if_pos (show (bens.map Beneficiary.weight).sum > 10000 from by omega)]
    rfl

/-- Witness for C2 amended: a list summing to 10000 builds, and a list
summing to 12000 is rejected by the earlier revision before broadcast. -/
theorem commentCmd_beneficiary_sum_guard_witness :
    (∃ cv, commentCmd { author := "alice", permlink := "p1", body := "hello",
                        beneficiaries := some (.arr [⟨"a", 4000⟩, ⟨"b", 6000⟩]) } =
      .ok [.comment cv,
        .comment_options
          { author := "alice", permlink := "p1",
            max_accepted_payout := "1000000.000 HBD", percent_hbd := 10000,
            allow_votes := true, allow_curation_rewards := true,
            extensions := [(0, [⟨"a", 4000⟩, ⟨"b", 6000⟩])] }]) ∧
    commentCmd { author := "alice", permlink := "p1", body := "hello",
                 beneficiaries := some (.arr [⟨"a", 6000⟩, ⟨"b", 6000⟩]) } =
      .error "Total beneficiary weight 12000 exceeds 10000 (100%)" := by
  constructor
  · exact (commentCmd_beneficiary_sum_guard
      { author := "alice", permlink := "p1", body := "hello",
        beneficiaries := some (.arr [⟨"a", 4000⟩, ⟨"b", 6000⟩]) }
      [⟨"a", 4000⟩, ⟨"b", 6000⟩]
      (by decide) rfl rfl (by decide) rfl rfl rfl).1 (by decide)
  · have h := (commentCmd_beneficiary_sum_guard
      { author := "alice", permlink := "p1", body := "hello",
        beneficiaries := some (.arr [⟨"a", 6000⟩, ⟨"b", 6000⟩]) }
      [⟨"a", 6000⟩, ⟨"b", 6000⟩]
      (by decide) rfl rfl (by decide) rfl rfl rfl).2 (by decide)
    simpa using h

/-- Counterexample for C3: a publish invocation with no parent URL, no
parent flags and no community builds a comment whose parent_permlink is
the post's own permlink "p1", which is not the empty string. -/
theorem publish_default_parent_not_empty :
    publishCmd { author := "alice", permlink := "p1", body := "hello" } =
      .ok [.comment
        { parent_author := "", parent_permlink := "p1", author := "alice",
          permlink := "p1", title := "", body := "hello", json_metadata := "" }] ∧
    ("p1" : String) ≠ "" :=
  ⟨by rfl, by decide⟩

/-- C3 (amended): with no parent URL, no explicit parent flags and no
community, the built comment has parent_author equal to the empty string
but parent_permlink equal to the post's own permlink (the fallback chain
`community || parentPermlink || permlink`), not the empty string. -/
theorem publish_default_parent_fields (inp : PublishInput)
    (hauthor : inp.author ≠ "") (hurl : inp.parentUrl = none)
    (hpa : inp.parentAuthor = "") (hpp : inp.parentPermlink = "")
    (hc : inp.community = "") (hbf : inp.bodyFile = none) (hbody : inp.body ≠ "")
    (hmeta : inp.metadataRaw = "\x7b\x7d") (hdr : inp.declineRewards = false)
    (hmp : inp.maxPayout = "") (hben : inp.beneficiaries = none)
    (hbr : inp.burnRewards = false) :
    ∃ jm, publishCmd inp =
      .ok [.comment
        { parent_author := "", parent_permlink := inp.permlink,
          author := inp.author, permlink := inp.permlink,
          title := inp.title, body := inp.body, json_metadata := jm }] := by
  unfold publishCmd
  rw [hurl, hbf, hmeta, hpa, hpp, hc, hdr, hmp, hben, hbr, if_neg hauthor]
  simp only [ne_eq, not_true_eq_false, false_and, if_false, Option.isSome_none,
    Bool.false_eq_true, or_self]
  simp only [show resolveBodyPublish inp.body none = Except.ok inp.body from rfl,
    show resolveParent "" "" none = Except.ok ("", "") from rfl]
  rw [if_neg hbody]
  exact ⟨_, rfl⟩

/-- Witness for C3 amended: the concrete invocation of the counterexample
satisfies the amended description. -/
theorem publish_default_parent_fields_witness :
    ∃ jm, publishCmd { author := "alice", permlink := "p1", body := "hello" } =
      .ok [.comment
        { parent_author := "", parent_permlink := "p1",
          author := "alice", permlink := "p1",
          title := "", body := "hello", json_metadata := jm }] :=
  publish_default_parent_fields
    { author := "alice", permlink := "p1", body := "hello" }
    (by decide) rfl rfl rfl rfl rfl (by decide) rfl rfl rfl rfl rfl

/-- C7: saving a configuration and then resolving it with no environment
overrides yields back the identical account, keys, and node values. -/
theorem saveConfig_getConfig_roundtrip (cfg : Config) :
    getConfig emptyEnv (saveConfig cfg) = some cfg := by
  obtain ⟨a, pk, ak, nd, ci⟩ := cfg
  by_cases h : a = "" <;>
    simp [getConfig, saveConfig, emptyEnv, getEnvConfig, truthyEnv, h]

/-- C6: with the account environment variable set and the persisted file
absent or unreadable/malformed, resolution returns a configuration (not
absent) whose account is the environment account, whose keys come from the
environment, and whose effective node is the default endpoint since the
node is unset. -/
theorem getConfig_env_only (e : Env) (a : String) (f : FileState)
    (ha : e.hiveAccount = some a) (hne : a ≠ "")
    (hf : f = .absent ∨ f = .unreadable) :
    ∃ cfg, getConfig e f = some cfg ∧ cfg.account = a ∧
      cfg.postingKey = truthyEnv e.hivePostingKey ∧
      cfg.activeKey = truthyEnv e.hiveActiveKey ∧
      cfg.node = none ∧ effectiveNode cfg = DEFAULT_NODE := by
  have key : envOnlyConfig (getEnvConfig e) =
      some { account := a, postingKey := truthyEnv e.hivePostingKey,
             activeKey := truthyEnv e.hiveActiveKey } := by
    simp [envOnlyConfig, getEnvConfig, truthyEnv, ha, hne]
  rcases hf with h | h <;> subst h <;>
    exact ⟨{ account := a, postingKey := truthyEnv e.hivePostingKey,
             activeKey := truthyEnv e.hiveActiveKey },
           by simpa [getConfig] using key, rfl, rfl, rfl, rfl, rfl⟩

/-- Witness for C6: environment account "alice" with no file resolves to a
configuration with account "alice" and the default node. -/
theorem getConfig_env_only_witness :
    ∃ cfg, getConfig { hiveAccount := some "alice" } .absent = some cfg ∧
      cfg.account = "alice" ∧
      cfg.postingKey = truthyEnv ({ hiveAccount := some "alice" } : Env).hivePostingKey ∧
      cfg.activeKey = truthyEnv ({ hiveAccount := some "alice" } : Env).hiveActiveKey ∧
      cfg.node = none ∧ effectiveNode cfg = DEFAULT_NODE :=
  getConfig_env_only { hiveAccount := some "alice" } "alice" .absent rfl
    (by decide) (Or.inl rfl)

/-- C9: after fetching the reward balances, the claim command
short-circuits to a "nothing to claim" outcome with no broadcast when all
three balances parse to zero, and broadcasts exactly one
`claim_reward_balance` operation carrying the fetched balances when any of
them is positive. -/
theorem claimCmd_zero_vs_positive (account : String)
    (b1 b2 b3 : Option String) (hacc : account ≠ "") :
    ((parseAssetAmount (jsDefault b1 "0.000 HIVE")).num = 0 ∧
     (parseAssetAmount (jsDefault b2 "0.000 HBD")).num = 0 ∧
     (parseAssetAmount (jsDefault b3 "0.000000 VESTS")).num = 0 →
       claimCmd account b1 b2 b3 = .ok .nothingToClaim) ∧
    (0 < parseAssetAmount (jsDefault b1 "0.000 HIVE") ∨
     0 < parseAssetAmount (jsDefault b2 "0.000 HBD") ∨
     0 < parseAssetAmount (jsDefault b3 "0.000000 VESTS") →
       claimCmd account b1 b2 b3 =
         .ok (.broadcast [.claim_reward_balance
           { account := account
             reward_hive := jsDefault b1 "0.000 HIVE"
             reward_hbd := jsDefault b2 "0.000 HBD"
             reward_vesting := jsDefault b3 "0.000000 VESTS" }])) := by
  constructor
  · intro h
    have hnot : ¬(0 < parseAssetAmount (jsDefault b1 "0.000 HIVE") ∨
        0 < parseAssetAmount (jsDefault b2 "0.000 HBD") ∨
        0 < parseAssetAmount (jsDefault b3 "0.000000 VESTS")) := by
      simp only [JsNum.zero_lt_iff, h.1, h.2.1, h.2.2]
      simp
    unfold claimCmd
    rw [if_neg hacc, if_neg hnot]
  · intro h
    unfold claimCmd
    rw [if_neg hacc, if_pos h]

/-- Witness for C9: zero balances short-circuit; a positive HIVE balance
broadcasts the single claim operation. -/
theorem claimCmd_zero_vs_positive_witness :
    (claimCmd "alice" (some "0.000 HIVE") (some "0.000 HBD") (some "0.000000 VESTS") =
      .ok .nothingToClaim) ∧
    (claimCmd "alice" (some "1.500 HIVE") none none =
      .ok (.broadcast [.claim_reward_balance
        { account := "alice"
          reward_hive := "1.500 HIVE"
          reward_hbd := "0.000 HBD"
          reward_vesting := "0.000000 VESTS" }])) := by
  constructor
  · exact (claimCmd_zero_vs_positive "alice" (some "0.000 HIVE") (some "0.000 HBD")
      (some "0.000000 VESTS") (by decide)).1 ⟨by decide, by decide, by decide⟩
  · have h := (claimCmd_zero_vs_positive "alice" (some "1.500 HIVE") none none (by decide)).2
      (Or.inl (by decide))
    simpa [jsDefault] using h

end HiveCli
